import Mathlib

/-!
Shallow embedding of the retrieval core of the AIQuerySystem repository
(src/embeddings.py, src/document_processor.py, src/role_filter.py,
src/ai_query_system.py) together with theorems settling the frozen claims.

Modelling conventions:
* Python floats are modelled as exact rationals (`ℚ`).  The two transcendental
  primitives used by the code, `math.log` and `math.sqrt`, are passed in as
  function parameters `lg sq : ℚ → ℚ`; every theorem below is either
  independent of their values, or is a concrete evaluation at inputs where the
  real functions take exact rational values (log 1 = 0, sqrt 0 = 0), so that
  the instantiations used agree pointwise with the real `math.log`/`math.sqrt`
  at every point at which the modelled run evaluates them.
* Python dicts with insertion-ordered iteration are modelled as association
  lists keyed in first-occurrence order; `set(...)` iteration order (which is
  unspecified in Python) is fixed to first-occurrence order.  No claim below
  depends on the column-index assignment of the vocabulary.
* Exceptions are modelled with `Except String`; `pickle` round-trips the pure
  data (lists, dicts, strings, numbers) exactly and is modelled as a snapshot
  record; the file-system side of save/load is out of scope.
* ASCII texts only are used in concrete evaluations, so `str.lower`,
  `\w`-tokenization and `str.strip` are modelled with their ASCII semantics.
-/

attribute [local semireducible] Rat.mul Rat.inv Rat.add Rat.sub

/-- First-occurrence-order deduplication, modelling iteration over a Python
dict / `list(set(...))` keyed in insertion order. -/
def dedupAux : List String → List String → List String
  | [], acc => acc.reverse
  | x :: xs, acc => if x ∈ acc then dedupAux xs acc else dedupAux xs (x :: acc)

def dedup (l : List String) : List String := dedupAux l []

/-- Association-list lookup with default, modelling `dict.get(k, d)`. -/
def lookupD (l : List (String × ℚ)) (k : String) (d : ℚ) : ℚ :=
  match l.find? (fun p => p.1 == k) with
  | some p => p.2
  | none => d

/-- Python slice-index resolution for a sequence of length `n`. -/
def pyIdx (n : Nat) (i : Int) : Nat :=
  if i < 0 then ((n : Int) + i).toNat else min i.toNat n

/-- Python `text[i:j]` on a list of characters. -/
def pySliceCh (l : List Char) (i j : Int) : List Char :=
  (l.take (pyIdx l.length j)).drop (pyIdx l.length i)

/-- Python `lst[:k]` for an arbitrary integer `k`: a nonnegative `k` keeps the
first `k` elements, a negative `k` drops the last `|k|` elements. -/
def pyTake (l : List α) (k : Int) : List α :=
  if 0 ≤ k then l.take k.toNat else l.take (l.length - (-k).toNat)

/-- Python `text.rfind(c, i, j)` for a single-character needle: the largest
index of `c` in the slice-resolved range, or `-1`. -/
def rfindI (l : List Char) (c : Char) (i j : Int) : Int :=
  let a := pyIdx l.length i
  let b := pyIdx l.length j
  (List.range l.length).foldl
    (fun m idx => if a ≤ idx ∧ idx < b ∧ l.getD idx ' ' = c then max m (idx : Int) else m)
    (-1)

/-- ASCII whitespace stripped by `str.strip()` on the texts considered here. -/
def isSpaceCh (c : Char) : Bool :=
  c == ' ' || c == '\t' || c == '\n' || c == '\r' || c == '\x0b' || c == '\x0c'

/-- Drop trailing whitespace. -/
def dropTrail (l : List Char) : List Char := (l.reverse.dropWhile isSpaceCh).reverse

/-- Python `str.strip()`. -/
def strip (l : List Char) : List Char := dropTrail (l.dropWhile isSpaceCh)

/-- Python `needle in haystack` substring test. -/
def contains_sub : List Char → List Char → Bool
  | [], nee => nee.isEmpty
  | c :: t, nee => nee.isPrefixOf (c :: t) || contains_sub t nee

/-- Python `str.replace(old, new)`: replace every non-overlapping occurrence
left to right (the keywords substituted here are never empty).  The recursion
is driven by a fuel argument so that it reduces structurally; each step
consumes at least one character, so fuel equal to the text length (as passed
by `str_replace`) never runs out. -/
def replaceFuel (old new : List Char) : Nat → List Char → List Char
  | _, [] => []
  | 0, l => l
  | fuel + 1, c :: rest =>
    if old ≠ [] ∧ old.isPrefixOf (c :: rest) then
      new ++ replaceFuel old new fuel (rest.drop (old.length - 1))
    else
      c :: replaceFuel old new fuel rest

def str_replace (s old new : String) : String :=
  ⟨replaceFuel old.toList new.toList s.toList.length s.toList⟩

/-- Maximal runs of word characters (`\b\w+\b` semantics): `cur` accumulates
the current run in reverse. -/
def tokenizeChars : List Char → List Char → List String
  | [], cur => if cur.isEmpty then [] else [⟨cur.reverse⟩]
  | c :: rest, cur =>
    if c.isAlphanum || c == '_' then tokenizeChars rest (c :: cur)
    else (if cur.isEmpty then [] else [⟨cur.reverse⟩]) ++ tokenizeChars rest []

/-- SimpleEmbeddings._tokenize: lower-case, then take maximal runs of
word characters (`\b\w+\b`), ASCII semantics. -/
def tokenize (text : String) : List String :=
  tokenizeChars (text.toList.map Char.toLower) []

/-- SimpleEmbeddings._compute_tf: term frequency over the distinct tokens in
first-occurrence order (`Counter` iteration order).  The Python division
`count / total_tokens` is only evaluated when the token list is non-empty. -/
def compute_tf (tokens : List String) : List (String × ℚ) :=
  (dedup tokens).map (fun t => (t, (tokens.count t : ℚ) / (tokens.length : ℚ)))

/-- SimpleEmbeddings._compute_idf with `lg` modelling `math.log`. -/
def compute_idf (lg : ℚ → ℚ) (documents : List String) : List (String × ℚ) :=
  let docSets := documents.map (fun d => dedup (tokenize d))
  (dedup docSets.flatten).map
    (fun w => (w, lg ((documents.length : ℚ) / (docSets.countP (fun ts => ts.contains w) : ℚ))))

structure SimpleEmbeddings where
  vocabulary : List String
  idf_scores : List (String × ℚ)
  fitted : Bool
deriving DecidableEq

/-- SimpleEmbeddings.__init__. -/
def SimpleEmbeddings.init : SimpleEmbeddings := ⟨[], [], false⟩

/-- SimpleEmbeddings.fit: rebuilds vocabulary and IDF table from scratch and
marks the model fitted (the previous state is discarded). -/
def SimpleEmbeddings.fit (lg : ℚ → ℚ) (_m : SimpleEmbeddings) (documents : List String) :
    SimpleEmbeddings :=
  { vocabulary := dedup ((documents.map tokenize).flatten),
    idf_scores := compute_idf lg documents,
    fitted := true }

/-- The vector produced by SimpleEmbeddings.transform once the fitted check
has passed: position `i` holds `tf(token_i) * idf.get(token_i, 0)` when
`token_i` occurs in the text, `0.0` otherwise.  (The Python loop writes
through `vocabulary[token]`, which is injective, so the positional map below
is the same assignment.) -/
def SimpleEmbeddings.transform_vec (m : SimpleEmbeddings) (text : String) : List ℚ :=
  let tf := compute_tf (tokenize text)
  m.vocabulary.map (fun vtok =>
    match tf.find? (fun p => p.1 == vtok) with
    | some p => p.2 * lookupD m.idf_scores vtok 0
    | none => 0)

/-- SimpleEmbeddings.transform, raising `ValueError` (the spec's
UnfittedModelError) when the model is not fitted. -/
def SimpleEmbeddings.transform (m : SimpleEmbeddings) (text : String) :
    Except String (List ℚ) :=
  if m.fitted then .ok (m.transform_vec text)
  else .error "Model must be fitted before transforming"

/-- SimpleEmbeddings.fit_transform: fit, then transform every document (the
inner transforms cannot raise because `fit` just set the fitted flag). -/
def SimpleEmbeddings.fit_transform (lg : ℚ → ℚ) (m : SimpleEmbeddings)
    (documents : List String) : SimpleEmbeddings × List (List ℚ) :=
  let m2 := m.fit lg documents
  (m2, documents.map m2.transform_vec)

/-- One metadata dict handed to VectorStore.add_documents (the keys the core
reads: `text` and `source`; a dict missing `source` behaves as
`source = ""` via `doc.get('source', '')`). -/
structure Chunk where
  text : String
  source : String
deriving DecidableEq

instance {ε α : Type} [DecidableEq ε] [DecidableEq α] : DecidableEq (Except ε α) := fun a b =>
  match a, b with
  | .error e, .error f =>
    match decEq e f with
    | isTrue h => isTrue (by rw [h])
    | isFalse h => isFalse (by intro hh; cases hh; exact h rfl)
  | .error _, .ok _ => isFalse (by intro hh; cases hh)
  | .ok _, .error _ => isFalse (by intro hh; cases hh)
  | .ok x, .ok y =>
    match decEq x y with
    | isTrue h => isTrue (by rw [h])
    | isFalse h => isFalse (by intro hh; cases hh; exact h rfl)

structure VectorStore where
  vectors : List (List ℚ)
  metadata : List Chunk
  embeddings_model : SimpleEmbeddings
deriving DecidableEq

/-- VectorStore.__init__. -/
def VectorStore.init : VectorStore := ⟨[], [], SimpleEmbeddings.init⟩

/-- VectorStore.add_documents: re-fits the embeddings model on the texts of
the new documents only, then extends the stored vectors and metadata. -/
def VectorStore.add_documents (lg : ℚ → ℚ) (s : VectorStore) (documents : List Chunk) :
    VectorStore :=
  let fitres := s.embeddings_model.fit_transform lg (documents.map Chunk.text)
  { vectors := s.vectors ++ fitres.2,
    metadata := s.metadata ++ documents,
    embeddings_model := fitres.1 }

/-- VectorStore._cosine_similarity with `sq` modelling `math.sqrt`; a zero
magnitude yields `0.0` without dividing. -/
def cosine_similarity (sq : ℚ → ℚ) (v1 v2 : List ℚ) : ℚ :=
  let dot := ((v1.zip v2).map (fun p => p.1 * p.2)).sum
  let m1 := sq ((v1.map (fun a => a * a)).sum)
  let m2 := sq ((v2.map (fun a => a * a)).sum)
  if m1 = 0 ∨ m2 = 0 then 0 else dot / (m1 * m2)

/-- The order in which Python's `similarities.sort(reverse=True)` arranges the
`(similarity, row-id)` tuples: descending lexicographic. -/
def simOrder (a b : ℚ × Nat) : Prop := b.1 < a.1 ∨ (a.1 = b.1 ∧ b.2 ≤ a.2)

instance : DecidableRel simOrder := fun a b => by unfold simOrder; exact inferInstance

instance : IsTotal (ℚ × Nat) simOrder := by
  constructor
  intro a b
  rcases lt_trichotomy a.1 b.1 with h | h | h
  · exact Or.inr (Or.inl h)
  · rcases Nat.le_total b.2 a.2 with h2 | h2
    · exact Or.inl (Or.inr ⟨h, h2⟩)
    · exact Or.inr (Or.inr ⟨h.symm, h2⟩)
  · exact Or.inl (Or.inl h)

instance : IsTrans (ℚ × Nat) simOrder := by
  constructor
  intro a b c hab hbc
  rcases hab with h1 | ⟨h1, h1n⟩ <;> rcases hbc with h2 | ⟨h2, h2n⟩
  · exact Or.inl (lt_trans h2 h1)
  · exact Or.inl (h2 ▸ h1)
  · exact Or.inl (h1 ▸ h2)
  · exact Or.inr ⟨h1.trans h2, h2n.trans h1n⟩

/-- The sorted `(similarity, row-id)` list built inside
VectorStore.similarity_search: pair each stored vector's cosine similarity to
the query vector with its insertion index, then sort with
`sort(reverse=True)` (tuples with distinct second components have a unique
descending-lexicographic arrangement, which insertion sort by `simOrder`
produces). -/
def rankPairs (sq : ℚ → ℚ) (s : VectorStore) (qv : List ℚ) : List (ℚ × Nat) :=
  List.insertionSort simOrder
    ((List.range s.vectors.length).map
      (fun i => (cosine_similarity sq qv (s.vectors.getD i []), i)))

/-- VectorStore.similarity_search: empty store short-circuits to `[]` before
the query is transformed; otherwise the query is transformed with the store's
own model (raising if unfitted), ranked, truncated with `[:k]`, and each kept
row id is resolved to its metadata dict paired with the similarity. -/
def VectorStore.similarity_search (sq : ℚ → ℚ) (s : VectorStore) (query : String) (k : Int) :
    Except String (List (Chunk × ℚ)) :=
  if s.vectors.isEmpty then .ok []
  else
    match s.embeddings_model.transform query with
    | .error e => .error e
    | .ok qv =>
      .ok ((pyTake (rankPairs sq s qv) k).map
        (fun p => (s.metadata.getD p.2 ⟨"", ""⟩, p.1)))

/-- The pickled snapshot written by VectorStore.save: the exact pure data
(vectors, metadata, vocabulary, IDF table, fitted flag); pickle round-trips
these values bit-exactly. -/
structure Snapshot where
  vectors : List (List ℚ)
  metadata : List Chunk
  vocabulary : List String
  idf_scores : List (String × ℚ)
  fitted : Bool

def VectorStore.save (s : VectorStore) : Snapshot :=
  ⟨s.vectors, s.metadata, s.embeddings_model.vocabulary,
   s.embeddings_model.idf_scores, s.embeddings_model.fitted⟩

/-- VectorStore.load: overwrite every field of the store from the snapshot. -/
def VectorStore.load (_s : VectorStore) (d : Snapshot) : VectorStore :=
  ⟨d.vectors, d.metadata, ⟨d.vocabulary, d.idf_scores, d.fitted⟩⟩

/-- The sandbox instantiation of `math.log` used by the concrete evaluations:
all of them only apply the logarithm at `1`, where `math.log` returns
exactly `0.0`. -/
def lg0 : ℚ → ℚ := fun _ => 0

/-- The sandbox instantiation of `math.sqrt` used by the concrete evaluations:
all of them only apply the square root at `0`, where `math.sqrt` returns
exactly `0.0`. -/
def sq0 : ℚ → ℚ := fun _ => 0

/-- Two-entry store used by concrete search evaluations: both texts tokenize
to the single token `a`, so `idf(a) = log(2/2) = 0` and both stored vectors
are `[0.0]` — exactly equal similarity to any query. -/
def store2 : VectorStore :=
  VectorStore.add_documents lg0 VectorStore.init [⟨"a", "d0"⟩, ⟨"a", "d1"⟩]

/-- The sentence boundary scanned for by DocumentProcessor.chunk_text:
`max(text.rfind('.', start, start+chunk_size), rfind('?', ...), rfind('!', ...))`,
evaluated only when the raw window end lies inside the text. -/
def chunkBreak (t : List Char) (cs : Int) (start : Int) : Int :=
  max (rfindI t '.' start (start + cs))
    (max (rfindI t '?' start (start + cs)) (rfindI t '!' start (start + cs)))

/-- The cut position used for the window starting at `start`: the raw end
`start + chunk_size`, shortened to just past the right-most sentence
boundary strictly after `start` when the raw end lies inside the text. -/
def chunkEnd (t : List Char) (cs : Int) (start : Int) : Int :=
  if start + cs < (t.length : Int) then
    if chunkBreak t cs start > start then chunkBreak t cs start + 1 else start + cs
  else start + cs

/-- The stripped slice `text[start:end].strip()` of the current window. -/
def chunkPiece (t : List Char) (cs : Int) (start : Int) : List Char :=
  strip (pySliceCh t start (chunkEnd t cs start))

/-- The next window start: `end - overlap`, forced to `end` when that would
not advance past `start`. -/
def chunkNext (t : List Char) (cs ov : Int) (start : Int) : Int :=
  if chunkEnd t cs start - ov ≤ start then chunkEnd t cs start
  else chunkEnd t cs start - ov

/-- The `while start < len(text)` loop of DocumentProcessor.chunk_text,
modelled with explicit fuel: `none` means the loop did not exit within
`fuel` iterations.  Each iteration appends the stripped window slice when it
is non-empty and advances `start` by `chunkNext`. -/
def chunkLoopF (t : List Char) (cs ov : Int) : Nat → Int → List String → Option (List String)
  | 0, start, acc => if start < (t.length : Int) then none else some acc
  | fuel + 1, start, acc =>
    if start < (t.length : Int) then
      chunkLoopF t cs ov fuel (chunkNext t cs ov start)
        (acc ++ (if (chunkPiece t cs start).isEmpty then [] else [⟨chunkPiece t cs start⟩]))
    else some acc

/-- DocumentProcessor.chunk_text.  A text no longer than `chunk_size` is
returned verbatim as a one-element list without entering the loop.  The loop
is run with fuel `len(text) + 1`; when `chunk_size ≥ 1` this fuel provably
suffices (the start strictly increases each iteration), and `none` reports
that the Python loop would still be running after that many iterations. -/
def chunk_text (text : String) (chunk_size overlap : Int) : Option (List String) :=
  if (text.length : Int) ≤ chunk_size then some [text]
  else chunkLoopF text.toList chunk_size overlap (text.length + 1) 0 []

/-- RoleFilter.role_permissions: role → (all_documents, sensitive_info). -/
def role_permissions (role : String) : Option (Bool × Bool) :=
  if role = "admin" then some (true, true)
  else if role = "manager" then some (true, false)
  else if role = "employee" then some (false, false)
  else if role = "public" then some (false, false)
  else none

/-- RoleFilter.document_restrictions: source → allowed roles. -/
def document_restrictions (source : String) : Option (List String) :=
  if source = "cybersecurity.txt" then some ["admin", "manager"]
  else if source = "cloud_devops.txt" then some ["admin", "manager", "employee"]
  else none

/-- The default allow-list used when a source is absent from the
restriction table. -/
def allRoles : List String := ["admin", "manager", "employee", "public"]

def sensitive_keywords : List String :=
  ["security", "password", "encryption", "vulnerability",
   "attack", "penetration", "firewall", "intrusion"]

/-- RoleFilter.filter_documents, generalised over the `source` accessor (the
Python code is duck-typed over dicts; `query` applies it to search results,
which carry a similarity as well).  Unknown roles are remapped to `public`
before any lookup. -/
def filter_documents_by (src : α → String) (documents : List α) (user_role : String) :
    List α :=
  let role := if (role_permissions user_role).isSome then user_role else "public"
  if ((role_permissions role).getD (false, false)).1 then documents
  else documents.filter (fun doc => ((document_restrictions (src doc)).getD allRoles).contains role)

/-- RoleFilter.filter_documents on plain chunk dicts. -/
def filter_documents (documents : List Chunk) (user_role : String) : List Chunk :=
  filter_documents_by Chunk.source documents user_role

/-- RoleFilter.filter_response: for a role without `sensitive_info`, each
keyword whose lower-cased form occurs in the lower-cased current text has its
occurrences replaced by `str.replace` (which matches the keyword literally,
i.e. case-sensitively); the disclaimer is appended iff the text changed. -/
def filter_response (response : String) (user_role : String) : String :=
  let role := if (role_permissions user_role).isSome then user_role else "public"
  if ((role_permissions role).getD (false, false)).2 then response
  else
    let filtered := sensitive_keywords.foldl
      (fun acc kw =>
        if contains_sub (acc.toList.map Char.toLower) (kw.toList.map Char.toLower) then
          str_replace acc kw ("[" ++ (⟨kw.toList.map Char.toUpper⟩ : String) ++ "_INFO_RESTRICTED]")
        else acc)
      response
    if filtered ≠ response then
      filtered ++ "\n\n[Note: Some sensitive information has been filtered based on your access level.]"
    else filtered

/-- The answer produced by the external answer-generation collaborator
(LLMManager.generate_response): its response text, source list, model name
and `context_used` count.  The collaborator itself is out of scope and is
passed in as a function parameter. -/
structure LLMResponse where
  response : String
  sources : List String
  model : String
  context_used : Nat
deriving DecidableEq

/-- The observable fields of the dict returned by AIQuerySystem.query
(`timestamp` is wall-clock output and is omitted; `model_used` is `none` in
the no-accessible-information branch, which does not carry that key). -/
structure QueryResult where
  query : String
  response : String
  sources : List String
  context_chunks : Nat
  user_role : String
  model_used : Option String
deriving DecidableEq

def noAccessResponse : String :=
  "I couldn\x27t find any relevant information in the documents accessible to your role."

/-- AIQuerySystem.query: fail fast with `RuntimeError` when uninitialized;
otherwise search, role-filter the hits, and either return the explicit
no-accessible-information result (without consulting `llm`) or pass the
filtered chunks to the collaborator and role-filter its answer text. -/
def AIQuerySystem.query (sq : ℚ → ℚ) (llm : String → List (Chunk × ℚ) → LLMResponse)
    (initialized : Bool) (store : VectorStore) (question : String) (top_k : Int)
    (user_role : String) : Except String QueryResult :=
  if initialized = false then .error "System not initialized. Call initialize() first."
  else
    match VectorStore.similarity_search sq store question top_k with
    | .error e => .error e
    | .ok hits =>
      let context_chunks := filter_documents_by (fun h : Chunk × ℚ => h.1.source) hits user_role
      if context_chunks.isEmpty then
        .ok ⟨question, noAccessResponse, [], 0, user_role, none⟩
      else
        let r := llm question context_chunks
        .ok ⟨question, filter_response r.response user_role, r.sources,
             r.context_used, user_role, some r.model⟩

/-- The second add_documents call used by the C5 evaluation: the first call
fits a one-token vocabulary, the second re-fits a two-token vocabulary while
the first vector is still stored. -/
def store5a : VectorStore := VectorStore.add_documents lg0 VectorStore.init [⟨"a", "d"⟩]

def store5b : VectorStore := VectorStore.add_documents lg0 store5a [⟨"b c", "d"⟩]

/-- A fitted one-token model for the transform evaluations. -/
def m8 : SimpleEmbeddings := SimpleEmbeddings.fit lg0 SimpleEmbeddings.init ["a"]

/-- A concrete answer-generation collaborator for the query evaluations. -/
def llm0 : String → List (Chunk × ℚ) → LLMResponse :=
  fun _ cs => ⟨"ans", [], "m", cs.length⟩

theorem dropWhile_head_not (p : Char → Bool) (l : List Char) :
    ∀ (c : Char) (cs : List Char), l.dropWhile p = c :: cs → p c = false := by
  induction l with
  | nil => intro c cs h; simp [List.dropWhile] at h
  | cons a t ih =>
    intro c cs h
    rw [List.dropWhile_cons] at h
    by_cases hp : p a = true
    · rw [if_pos hp] at h; exact ih c cs h
    · rw [if_neg hp] at h
      cases h
      simpa using hp

theorem dropWhile_of_head_not (p : Char → Bool) (l : List Char)
    (h : ∀ c cs, l = c :: cs → p c = false) : l.dropWhile p = l := by
  cases l with
  | nil => rfl
  | cons a t =>
    rw [List.dropWhile_cons, if_neg]
    simp [h a t rfl]

theorem dropWhile_idem (p : Char → Bool) (l : List Char) :
    (l.dropWhile p).dropWhile p = l.dropWhile p :=
  dropWhile_of_head_not p _ (fun c cs h => dropWhile_head_not p l c cs h)

theorem dropWhile_suffix_exists (p : Char → Bool) (l : List Char) :
    ∃ s, s ++ l.dropWhile p = l := by
  induction l with
  | nil => exact ⟨[], rfl⟩
  | cons a t ih =>
    by_cases hp : p a = true
    · obtain ⟨s, hs⟩ := ih
      exact ⟨a :: s, by rw [List.dropWhile_cons, if_pos hp]; simpa using hs⟩
    · exact ⟨[], by rw [List.dropWhile_cons, if_neg hp]; rfl⟩

theorem dropTrail_append (l : List Char) : ∃ s, dropTrail l ++ s = l := by
  obtain ⟨s, hs⟩ := dropWhile_suffix_exists isSpaceCh l.reverse
  refine ⟨s.reverse, ?_⟩
  have h2 := congrArg List.reverse hs
  rw [List.reverse_append, List.reverse_reverse] at h2
  exact h2

theorem dropWhile_dropTrail (A : List Char) (hA : A.dropWhile isSpaceCh = A) :
    (dropTrail A).dropWhile isSpaceCh = dropTrail A := by
  apply dropWhile_of_head_not
  intro c cs h
  obtain ⟨s, hs⟩ := dropTrail_append A
  rw [h] at hs
  by_cases hp : isSpaceCh c = true
  · exfalso
    have hA2 : A = c :: (cs ++ s) := by rw [← hs]; rfl
    have hstep : A.dropWhile isSpaceCh = (cs ++ s).dropWhile isSpaceCh := by
      rw [hA2, List.dropWhile_cons, if_pos hp]
    rw [hA] at hstep
    obtain ⟨s2, hs2⟩ := dropWhile_suffix_exists isSpaceCh (cs ++ s)
    have hlen := congrArg List.length hs2
    rw [← hstep, hA2] at hlen
    simp [List.length_append] at hlen
    omega
  · simpa using hp

theorem dropTrail_idem (l : List Char) : dropTrail (dropTrail l) = dropTrail l := by
  unfold dropTrail
  rw [List.reverse_reverse, dropWhile_idem]

theorem strip_strip (l : List Char) : strip (strip l) = strip l := by
  unfold strip
  rw [dropWhile_dropTrail (l.dropWhile isSpaceCh) (dropWhile_idem isSpaceCh l), dropTrail_idem]

theorem chunkEnd_progress (t : List Char) (cs start : Int) (hcs : 1 ≤ cs) :
    start + 1 ≤ chunkEnd t cs start := by
  unfold chunkEnd
  split_ifs with h1 h2 <;> omega

theorem chunkNext_progress (t : List Char) (cs ov start : Int) (hcs : 1 ≤ cs) :
    start + 1 ≤ chunkNext t cs ov start := by
  have h := chunkEnd_progress t cs start hcs
  unfold chunkNext
  split_ifs with h1 <;> omega

theorem chunkLoopF_isSome (t : List Char) (cs ov : Int) (hcs : 1 ≤ cs) :
    ∀ (fuel : Nat) (start : Int) (acc : List String),
      (t.length : Int) ≤ start + (fuel : Int) →
      (chunkLoopF t cs ov fuel start acc).isSome = true := by
  intro fuel
  induction fuel with
  | zero =>
    intro start acc hle
    simp only [chunkLoopF]
    rw [if_neg (by omega)]
    rfl
  | succ f ih =>
    intro start acc hle
    simp only [chunkLoopF]
    by_cases h : start < (t.length : Int)
    · rw [if_pos h]
      apply ih
      have := chunkNext_progress t cs ov start hcs
      push_cast at hle ⊢
      omega
    · rw [if_neg h]; rfl

theorem chunkLoopF_chunks (t : List Char) (cs ov : Int) :
    ∀ (fuel : Nat) (start : Int) (acc res : List String),
      chunkLoopF t cs ov fuel start acc = some res →
      (∀ c ∈ acc, strip c.toList = c.toList ∧ c ≠ "") →
      ∀ c ∈ res, strip c.toList = c.toList ∧ c ≠ "" := by
  intro fuel
  induction fuel with
  | zero =>
    intro start acc res hres hacc
    simp only [chunkLoopF] at hres
    by_cases h : start < (t.length : Int)
    · rw [if_pos h] at hres; cases hres
    · rw [if_neg h] at hres
      cases hres
      exact hacc
  | succ f ih =>
    intro start acc res hres hacc
    simp only [chunkLoopF] at hres
    by_cases h : start < (t.length : Int)
    · rw [if_pos h] at hres
      refine ih _ _ _ hres ?_
      intro c hc
      rcases List.mem_append.mp hc with hc | hc
      · exact hacc c hc
      · by_cases hemp : (chunkPiece t cs start).isEmpty = true
        · rw [if_pos hemp] at hc; cases hc
        · rw [if_neg hemp] at hc
          have hceq : c = (⟨chunkPiece t cs start⟩ : String) := by
            simpa using hc
          subst hceq
          constructor
          · show strip (chunkPiece t cs start) = chunkPiece t cs start
            unfold chunkPiece
            exact strip_strip _
          · intro hcontra
            have hdata : chunkPiece t cs start = [] := by
              have := congrArg String.data hcontra
              simpa using this
            rw [hdata] at hemp
            simp at hemp
    · rw [if_neg h] at hres
      cases hres
      exact hacc

theorem rankPairs_pairwise (sq : ℚ → ℚ) (s : VectorStore) (qv : List ℚ) :
    (rankPairs sq s qv).Pairwise (fun a b => b.1 < a.1 ∨ (a.1 = b.1 ∧ b.2 < a.2)) := by
  have hsorted : (rankPairs sq s qv).Pairwise simOrder :=
    List.sorted_insertionSort simOrder _
  have hperm := List.perm_insertionSort simOrder
    ((List.range s.vectors.length).map
      (fun i => (cosine_similarity sq qv (s.vectors.getD i []), i)))
  have hbase : ((List.range s.vectors.length).map
      (fun i => (cosine_similarity sq qv (s.vectors.getD i []), i))).Pairwise
        (fun a b : ℚ × Nat => a.2 ≠ b.2) := by
    rw [List.pairwise_map]
    exact List.nodup_range s.vectors.length
  have hne : (rankPairs sq s qv).Pairwise (fun a b : ℚ × Nat => a.2 ≠ b.2) :=
    (List.Perm.pairwise_iff (fun h => h.symm) hperm).mpr hbase
  refine (hsorted.and hne).imp ?_
  intro a b hab
  rcases hab with ⟨hso | ⟨heq, hle⟩, hne2⟩
  · exact Or.inl hso
  · exact Or.inr ⟨heq, lt_of_le_of_ne hle (Ne.symm hne2)⟩

theorem pyTake_sublist (l : List α) (k : Int) : (pyTake l k).Sublist l := by
  unfold pyTake
  split_ifs <;> exact List.take_sublist _ _

theorem rankPairs_length (sq : ℚ → ℚ) (s : VectorStore) (qv : List ℚ) :
    (rankPairs sq s qv).length = s.vectors.length := by
  unfold rankPairs
  rw [(List.perm_insertionSort simOrder _).length_eq]
  simp

theorem map_zero_eq_replicate (l : List String) :
    (l.map (fun _ => (0 : ℚ))) = List.replicate l.length 0 :=
  List.map_const' l 0

/-- C1: the claim asserts that ties in similarity are broken by ascending
insertion position.  The code sorts the `(similarity, row-id)` tuples with
`sort(reverse=True)`, which on equal similarities puts the larger row id
first.  Counterexample: two identical documents have exactly equal
similarity to any query, and the search returns the later-inserted one
(source `d1`, row id 1) before the earlier one (`d0`, row id 0). -/
theorem c1_counterexample :
    VectorStore.similarity_search sq0 store2 "a" 2 =
      .ok [(⟨"a", "d1"⟩, 0), (⟨"a", "d0"⟩, 0)] ∧
    store2.metadata = [⟨"a", "d0"⟩, ⟨"a", "d1"⟩] ∧
    rankPairs sq0 store2 (store2.embeddings_model.transform_vec "a") =
      [(0, 1), (0, 0)] := by decide

/-- C1 (amended): search results are sorted by similarity in descending
order, and ties in similarity are broken by descending insertion position
(larger row id first, from the reverse lexicographic tuple sort); on a
non-empty fitted store the returned list is exactly the ranked, truncated
pair list resolved against the metadata table. -/
theorem c1_search_sorted (sq : ℚ → ℚ) (s : VectorStore) (q : String) (k : Int) :
    (pyTake (rankPairs sq s (s.embeddings_model.transform_vec q)) k).Pairwise
      (fun a b => b.1 < a.1 ∨ (a.1 = b.1 ∧ b.2 < a.2)) ∧
    (s.embeddings_model.fitted = true → s.vectors ≠ [] →
      VectorStore.similarity_search sq s q k =
        .ok ((pyTake (rankPairs sq s (s.embeddings_model.transform_vec q)) k).map
          (fun p => (s.metadata.getD p.2 ⟨"", ""⟩, p.1)))) := by
  constructor
  · exact List.Pairwise.sublist (pyTake_sublist _ _) (rankPairs_pairwise sq s _)
  · intro hfit hne
    unfold VectorStore.similarity_search
    rw [if_neg (by simp [List.isEmpty_iff, hne])]
    unfold SimpleEmbeddings.transform
    rw [if_pos hfit]

/-- C1 witness: the amended theorem applied to the concrete two-entry store
with query "a" and k = 2. -/
theorem c1_witness :
    (pyTake (rankPairs sq0 store2 (store2.embeddings_model.transform_vec "a")) 2).Pairwise
      (fun a b => b.1 < a.1 ∨ (a.1 = b.1 ∧ b.2 < a.2)) ∧
    VectorStore.similarity_search sq0 store2 "a" 2 =
      .ok ((pyTake (rankPairs sq0 store2 (store2.embeddings_model.transform_vec "a")) 2).map
        (fun p => (store2.metadata.getD p.2 ⟨"", ""⟩, p.1))) :=
  ⟨(c1_search_sorted sq0 store2 "a" 2).1,
   (c1_search_sorted sq0 store2 "a" 2).2 (by decide) (by decide)⟩

/-- C2: the claim asserts that a text no longer than chunkSize is returned
trimmed and that a whitespace-only input yields the empty sequence, so that
every returned element is non-empty after trimming.  The code's short-text
branch `return [text]` performs no trimming and no dropping: a single space
is returned as the one-element list containing that untrimmed space, whose
trim is empty. -/
theorem c2_counterexample :
    chunk_text " " 500 50 = some [" "] ∧
    strip (" " : String).toList = [] ∧
    (" " : String) ≠ "" := by decide

/-- C2 (amended): a text with `len(text) <= chunkSize` is returned verbatim
as the single chunk `[text]`, untrimmed and even when empty or
whitespace-only; only the chunks produced by the splitting loop are trimmed
and non-empty. -/
theorem c2_chunk_short_and_trimmed (text : String) (cs ov : Int) :
    ((text.length : Int) ≤ cs → chunk_text text cs ov = some [text]) ∧
    (¬ (text.length : Int) ≤ cs → ∀ res, chunk_text text cs ov = some res →
      ∀ c ∈ res, strip c.toList = c.toList ∧ c ≠ "") := by
  constructor
  · intro h
    unfold chunk_text
    rw [if_pos h]
  · intro h res hres c hc
    unfold chunk_text at hres
    rw [if_neg h] at hres
    exact chunkLoopF_chunks text.toList cs ov _ _ _ _ hres (by simp) c hc

/-- C2 witness: the amended theorem applied to a short text. -/
theorem c2_witness : chunk_text "abcd" 10 2 = some ["abcd"] :=
  (c2_chunk_short_and_trimmed "abcd" 10 2).1 (by decide)

theorem chunkLoop_ab_none :
    ∀ (fuel : Nat) (acc : List String),
      chunkLoopF ("ab" : String).toList 0 0 fuel 0 acc = none := by
  intro fuel
  induction fuel with
  | zero =>
    intro acc
    simp only [chunkLoopF]
    rw [if_pos (by decide)]
  | succ f ih =>
    intro acc
    simp only [chunkLoopF]
    rw [if_pos (by decide)]
    rw [show chunkNext ("ab" : String).toList 0 0 0 = 0 from by decide]
    rw [if_pos (show (chunkPiece ("ab" : String).toList 0 0).isEmpty = true from by decide)]
    rw [List.append_nil]
    exact ih acc

/-- C7: the claim asserts termination for every integer chunkSize.  With
`chunk_size = 0` and the two-character text "ab", the window end is
`start + 0 = start`, the slice is empty, and the forced progress branch sets
the next start to `end = start`, so `start` stays `0` forever: no amount of
fuel makes the loop exit. -/
theorem c7_counterexample :
    chunk_text "ab" 0 0 = none ∧
    ¬ ∃ fuel : Nat, (chunkLoopF ("ab" : String).toList 0 0 fuel 0 []).isSome = true := by
  constructor
  · decide
  · rintro ⟨fuel, hfuel⟩
    rw [chunkLoop_ab_none fuel []] at hfuel
    cases hfuel

/-- C7 (amended): chunk_text terminates for every text and every overlap
whenever `chunkSize ≥ 1`: each loop iteration strictly advances the window
start, so fuel `len(text) + 1` always suffices. -/
theorem c7_chunk_terminates (text : String) (cs ov : Int) (hcs : 1 ≤ cs) :
    (chunk_text text cs ov).isSome = true := by
  unfold chunk_text
  by_cases h : (text.length : Int) ≤ cs
  · rw [if_pos h]; rfl
  · rw [if_neg h]
    apply chunkLoopF_isSome text.toList cs ov hcs
    have hlen : text.toList.length = text.length := rfl
    push_cast
    omega

/-- C7 witness: termination at a text longer than the chunk size, with
overlap larger than the chunk size. -/
theorem c7_witness : (chunk_text "hello world" 3 10).isSome = true :=
  c7_chunk_terminates "hello world" 3 10 (by decide)

/-- C3: the claim asserts that occurrences of sensitive terms in any casing
are replaced (mirroring the found casing) and that the given example is
redacted with a disclaimer.  The code gates on a case-insensitive
containment check but then calls `str.replace` with the lower-case keyword
itself, which matches case-sensitively, so capitalized occurrences such as
"Passwords" are never rewritten; moreover the keyword list contains
"encryption", which is not a substring of "encrypted".  On the claim's own
example the text is therefore returned unchanged, with no markers and no
disclaimer. -/
theorem c3_counterexample :
    filter_response "Passwords must be encrypted." "public" =
      "Passwords must be encrypted." := by decide

/-- C3 (amended): for a role with canSeeSensitiveInfo the text is returned
unchanged; for a role without it, only exact lower-case literal occurrences
of the keywords are replaced (the gate being a case-insensitive containment
check), with the disclaimer appended iff the text changed — so
"Passwords must be encrypted." passes through unchanged for "public", while
the all-lower-case "password must be encrypted." has "password" replaced by
its restriction marker and the disclaimer appended. -/
theorem c3_filter_response_behavior :
    (∀ text : String, filter_response text "admin" = text) ∧
    filter_response "Passwords must be encrypted." "public" =
      "Passwords must be encrypted." ∧
    filter_response "password must be encrypted." "public" =
      "[PASSWORD_INFO_RESTRICTED] must be encrypted.\n\n[Note: Some sensitive information has been filtered based on your access level.]" := by
  refine ⟨?_, by decide, by decide⟩
  intro text
  rfl

/-- C4: the claim asserts that every `k ≤ 0` yields an empty result.  Python
`similarities[:k]` with a negative `k` keeps everything but the last `|k|`
entries: on the two-entry store, `k = -1` returns one result, not zero. -/
theorem c4_counterexample :
    VectorStore.similarity_search sq0 store2 "a" (-1) =
      .ok [(⟨"a", "d1"⟩, 0)] ∧
    [((⟨"a", "d1"⟩ : Chunk), (0 : ℚ))] ≠ [] := by decide

/-- C4 (amended): the result length never exceeds the index size; for
`k ≥ 0` the length is at most `k` and `k = 0` yields the empty list; a
negative `k` keeps all but the last `|k|` ranked entries (Python slice
semantics); an empty index yields the empty list for every `k` without
raising. -/
theorem c4_search_bounds (sq : ℚ → ℚ) (s : VectorStore) (q : String) (k : Int)
    (res : List (Chunk × ℚ)) (hres : VectorStore.similarity_search sq s q k = .ok res) :
    res.length ≤ s.vectors.length ∧
    (0 ≤ k → (res.length : Int) ≤ k) ∧
    (k = 0 → res = []) ∧
    (k < 0 → res.length = s.vectors.length - (-k).toNat) ∧
    (s.vectors = [] → res = []) := by
  unfold VectorStore.similarity_search at hres
  by_cases hemp : s.vectors.isEmpty = true
  · rw [if_pos hemp] at hres
    cases hres
    have hnil : s.vectors = [] := List.isEmpty_iff.mp hemp
    refine ⟨by simp, by simp, fun _ => rfl, ?_, fun _ => rfl⟩
    intro
    simp [hnil]
  · rw [if_neg hemp] at hres
    unfold SimpleEmbeddings.transform at hres
    by_cases hfit : s.embeddings_model.fitted = true
    · rw [if_pos hfit] at hres
      dsimp only at hres
      cases hres
      have hlen : ((pyTake (rankPairs sq s (s.embeddings_model.transform_vec q)) k).map
          (fun p => (s.metadata.getD p.2 ⟨"", ""⟩, p.1))).length =
          (pyTake (rankPairs sq s (s.embeddings_model.transform_vec q)) k).length :=
        List.length_map _ _
      have hrank := rankPairs_length sq s (s.embeddings_model.transform_vec q)
      refine ⟨?_, ?_, ?_, ?_, ?_⟩
      · rw [hlen]
        calc (pyTake _ k).length ≤ _ := (pyTake_sublist _ k).length_le
        _ = s.vectors.length := hrank
      · intro hk
        rw [hlen]
        unfold pyTake
        rw [if_pos hk, List.length_take]
        have h1 : min k.toNat (rankPairs sq s (s.embeddings_model.transform_vec q)).length
            ≤ k.toNat := Nat.min_le_left _ _
        omega
      · intro hk
        subst hk
        simp [pyTake]
      · intro hk
        rw [hlen]
        unfold pyTake
        rw [if_neg (by omega), List.length_take, hrank]
        omega
      · intro hv
        exact absurd (List.isEmpty_iff.mpr hv) (by simpa using hemp)
    · rw [if_neg hfit] at hres
      dsimp only at hres
      cases hres

/-- C4 witness: the amended theorem applied to the concrete two-entry store
with k = 1. -/
theorem c4_witness :
    [((⟨"a", "d1"⟩ : Chunk), (0 : ℚ))].length ≤ store2.vectors.length ∧
    ((0 : Int) ≤ 1 → ([((⟨"a", "d1"⟩ : Chunk), (0 : ℚ))].length : Int) ≤ 1) ∧
    ((1 : Int) = 0 → [((⟨"a", "d1"⟩ : Chunk), (0 : ℚ))] = []) ∧
    ((1 : Int) < 0 →
      [((⟨"a", "d1"⟩ : Chunk), (0 : ℚ))].length = store2.vectors.length - (-1 : Int).toNat) ∧
    (store2.vectors = [] → [((⟨"a", "d1"⟩ : Chunk), (0 : ℚ))] = []) :=
  c4_search_bounds sq0 store2 "a" 1 [(⟨"a", "d1"⟩, 0)] (by decide)

/-- C5: the spec's invariant — every stored vector has the length of the
store's fitted vocabulary and comes from that single fit — is broken by the
code: `add_documents` re-fits the embeddings model on the new texts only
while keeping the previously stored vectors.  After adding a one-token
document and then a two-token document, the store holds vectors of lengths
1 and 2 under a two-entry vocabulary. -/
theorem c5_mixed_vector_lengths :
    store5b.vectors.map List.length = [1, 2] ∧
    store5b.embeddings_model.vocabulary.length = 2 ∧
    ¬ ∀ v ∈ store5b.vectors, v.length = store5b.embeddings_model.vocabulary.length := by
  decide

/-- C6: save followed by load restores every field of the store (vectors,
metadata, vocabulary, IDF table, fitted flag), so search results after the
round trip are identical to those before it, for every query and k. -/
theorem c6_save_load_roundtrip (sq : ℚ → ℚ) (t s : VectorStore) (q : String) (k : Int) :
    VectorStore.similarity_search sq (VectorStore.load t (VectorStore.save s)) q k =
      VectorStore.similarity_search sq s q k := rfl

/-- C8: transform fails with the unfitted-model error exactly when the model
is not fitted; on a fitted model it succeeds on every input, and a text that
tokenizes to nothing yields the all-zero vector of vocabulary length (the
`count / total_tokens` division is never evaluated because the token counter
is empty), not a division-by-zero failure. -/
theorem c8_transform_fitted_iff (m : SimpleEmbeddings) (text : String) :
    (m.fitted = false →
      m.transform text = .error "Model must be fitted before transforming") ∧
    (m.fitted = true → m.transform text = .ok (m.transform_vec text)) ∧
    (m.fitted = true → tokenize text = [] →
      m.transform text = .ok (List.replicate m.vocabulary.length 0)) := by
  refine ⟨?_, ?_, ?_⟩
  · intro h
    unfold SimpleEmbeddings.transform
    rw [h]
    rfl
  · intro h
    unfold SimpleEmbeddings.transform
    rw [h]
    rfl
  · intro h htok
    unfold SimpleEmbeddings.transform
    rw [h]
    simp only [if_true]
    congr 1
    unfold SimpleEmbeddings.transform_vec
    rw [htok]
    exact map_zero_eq_replicate m.vocabulary

/-- C8 witness: the theorem applied to a fitted one-token model on a text of
punctuation only, and to the freshly initialized (unfitted) model. -/
theorem c8_witness :
    m8.transform "!!!" = .ok (List.replicate m8.vocabulary.length 0) ∧
    SimpleEmbeddings.init.transform "x" =
      .error "Model must be fitted before transforming" :=
  ⟨(c8_transform_fitted_iff m8 "!!!").2.2 (by decide) (by decide),
   (c8_transform_fitted_iff SimpleEmbeddings.init "x").1 (by decide)⟩

/-- C9: filter_documents remaps a role absent from the permission table to
"public" before any lookup; a role with all_documents gets the input back
unchanged; any other role gets exactly the order-preserving filter of the
chunks whose source allow-list (defaulting to all four roles when the source
is unrestricted) contains the role; and the result is always a subsequence
of the input. -/
theorem c9_filter_documents_spec (docs : List Chunk) (role : String) :
    (role_permissions role = none →
      filter_documents docs role = filter_documents docs "public") ∧
    (∀ p : Bool × Bool, role_permissions role = some p → p.1 = true →
      filter_documents docs role = docs) ∧
    (∀ p : Bool × Bool, role_permissions role = some p → p.1 = false →
      filter_documents docs role =
        docs.filter
          (fun d => ((document_restrictions d.source).getD allRoles).contains role)) ∧
    (filter_documents docs role).Sublist docs := by
  refine ⟨?_, ?_, ?_, ?_⟩
  · intro h
    unfold filter_documents filter_documents_by
    rw [h]
    rfl
  · intro p hp hp1
    unfold filter_documents filter_documents_by
    rw [hp]
    simp [hp, hp1]
  · intro p hp hp1
    unfold filter_documents filter_documents_by
    rw [hp]
    simp [hp, hp1]
  · unfold filter_documents filter_documents_by
    dsimp only
    split_ifs <;>
      first
        | exact List.Sublist.refl docs
        | exact List.filter_sublist docs

/-- C9 witness: the theorem applied to a concrete restricted chunk for an
unknown role, for "admin" (all_documents), and for "public". -/
theorem c9_witness :
    (filter_documents [⟨"t", "cybersecurity.txt"⟩] "hacker" =
      filter_documents [⟨"t", "cybersecurity.txt"⟩] "public") ∧
    (filter_documents [⟨"t", "cybersecurity.txt"⟩] "admin" =
      [⟨"t", "cybersecurity.txt"⟩]) ∧
    (filter_documents [⟨"t", "cybersecurity.txt"⟩] "public" =
      List.filter
        (fun d => ((document_restrictions d.source).getD allRoles).contains "public")
        [⟨"t", "cybersecurity.txt"⟩]) :=
  ⟨(c9_filter_documents_spec [⟨"t", "cybersecurity.txt"⟩] "hacker").1 rfl,
   (c9_filter_documents_spec [⟨"t", "cybersecurity.txt"⟩] "admin").2.1 (true, true) rfl rfl,
   (c9_filter_documents_spec [⟨"t", "cybersecurity.txt"⟩] "public").2.2.1 (false, false) rfl rfl⟩

/-- C10: a query against an uninitialized system fails fast with the
RuntimeError, a different outcome constructor from any ok-result; and when
role filtering leaves no chunks, query returns the explicit
no-accessible-information result with empty sources — the result does not
depend on the answer-generation collaborator `llm`, which is therefore never
consulted in that branch. -/
theorem c10_query_behavior (sq : ℚ → ℚ) (llm : String → List (Chunk × ℚ) → LLMResponse)
    (store : VectorStore) (q : String) (k : Int) (role : String) :
    (AIQuerySystem.query sq llm false store q k role =
      .error "System not initialized. Call initialize() first.") ∧
    (∀ hits, VectorStore.similarity_search sq store q k = .ok hits →
      filter_documents_by (fun h : Chunk × ℚ => h.1.source) hits role = [] →
      AIQuerySystem.query sq llm true store q k role =
        .ok ⟨q, noAccessResponse, [], 0, role, none⟩) := by
  constructor
  · rfl
  · intro hits hsearch hempty
    unfold AIQuerySystem.query
    rw [if_neg (by simp)]
    rw [hsearch]
    dsimp only
    rw [hempty]
    rfl

/-- C10 witness: the theorem applied to the empty store (search returns the
empty hit list, role filtering keeps nothing) with a concrete collaborator. -/
theorem c10_witness :
    AIQuerySystem.query sq0 llm0 false VectorStore.init "hi" 3 "public" =
      .error "System not initialized. Call initialize() first." ∧
    AIQuerySystem.query sq0 llm0 true VectorStore.init "hi" 3 "public" =
      .ok ⟨"hi", noAccessResponse, [], 0, "public", none⟩ :=
  ⟨(c10_query_behavior sq0 llm0 VectorStore.init "hi" 3 "public").1,
   (c10_query_behavior sq0 llm0 VectorStore.init "hi" 3 "public").2 [] (by decide) (by decide)⟩
